import Mathlib

/-!
Verification of the Appathon schema-reconciliation pipeline
(`src/Appathon/Orchestrator.py` and `src/Appathon/Eureka/orch.py`).

Shallow embedding: tabular CSV files are `Table` values (header list plus
rows of string cells); the working directory is an association list from
file name to table; Python `dict`s are association lists with
insert-or-overwrite (`dictInsert`) preserving insertion order, exactly as
CPython dicts behave.  The LLM oracle is abstracted as a function from the
queried vendor field to the decoded shape of its reply (`json.loads`
failure, a non-dict JSON value, or a JSON object's key/value entries).
-/

namespace Appathon

/-- A parsed CSV file: `pandas.DataFrame` restricted to string cells, as
used by the orchestrator (headers plus rows, order significant). -/
structure Table where
  headers : List String
  rows : List (List String)
deriving DecidableEq, Repr

/-- The working directory: file name to parsed content.  Later writes
overwrite earlier ones in place. -/
abbrev FS := List (String × Table)

/-- Python `d[k]` / `k in d` lookup on an association list (first match,
which is the only match for lists built by `dictInsert`). -/
def dictLookup {α : Type} : List (String × α) → String → Option α
  | [], _ => none
  | p :: rest, k => if p.1 = k then some p.2 else dictLookup rest k

/-- Python `d[k] = v`: overwrite the value at an existing key in place
(keeping its position), otherwise append the new pair, exactly the
insertion-order semantics of CPython dicts. -/
def dictInsert {α : Type} : List (String × α) → String → α → List (String × α)
  | [], k, v => [(k, v)]
  | p :: rest, k, v => if p.1 = k then (k, v) :: rest else p :: dictInsert rest k v

/-- The keys of an association list are pairwise distinct (every list built
only by `dictInsert` from `[]` satisfies this, as Python dicts do). -/
abbrev KeysNodup {α : Type} (d : List (String × α)) : Prop :=
  (d.map Prod.fst).Nodup

/-- Python `dict(zip(ks, vs))` as in `perform_etl` line 94. -/
def dictOfZip (ks vs : List String) : List (String × String) :=
  (ks.zip vs).foldl (fun d p => dictInsert d p.1 p.2) []

/-- Python `h.strip().lower()` (ASCII), used on vendor headers at
`Orchestrator.py` line 131. -/
def normalizeHeader (h : String) : String :=
  String.mk (((h.data.dropWhile Char.isWhitespace).reverse.dropWhile
    Char.isWhitespace).reverse.map Char.toLower)

/-- Shape of the decoded LLM reply for one field query: `json.loads`
raised `JSONDecodeError`, or parsed to a non-dict value, or parsed to a
JSON object with the given entries. -/
inductive DecodeResult
  | parseError
  | nonDict
  | dict (entries : List (String × String))
deriving DecidableEq

/-- The semantic oracle for one run: per queried vendor field, the decoded
shape of the LLM's reply (the target schema is fixed within a run, so the
reply is a function of the vendor field alone). -/
def Oracle : Type := String → DecodeResult

/-- `Orchestrator.py` lines 52-67, one loop iteration: decode the reply
(`json.loads` inside `try`), and only when it is a dict containing the
queried vendor field, store `mapping[vendor_field]`; otherwise fall
through (the `except` prints and continues). -/
def matchFieldStep (oracle : Oracle) (field_mappings : List (String × String))
    (vendor_field : String) : List (String × String) :=
  match oracle vendor_field with
  | .dict entries =>
    match dictLookup entries vendor_field with
    | some target => dictInsert field_mappings vendor_field target
    | none => field_mappings
  | _ => field_mappings

/-- The per-field outcome: `some target` exactly when the decoded reply is
a dict containing the queried field (spec 4.2's `Matched`), `none` for the
recovered `Skipped` cases. -/
def matchOutcome (oracle : Oracle) (vendor_field : String) : Option String :=
  match oracle vendor_field with
  | .dict entries => dictLookup entries vendor_field
  | _ => none

/-- The whole `for vendor_field in vendor_fields` loop of `analyze_fields`
(`Orchestrator.py` lines 51-67), starting from the empty dict. -/
def analyzeLoop (oracle : Oracle) (vendor_fields : List String) :
    List (String × String) :=
  vendor_fields.foldl (matchFieldStep oracle) []

/-- Number of vendor fields whose inference call fails (malformed reply or
missing key) in one run of the loop. -/
def failureCount (oracle : Oracle) (fields : List String) : Nat :=
  (fields.filter (fun f => (matchOutcome oracle f).isNone)).length

/-- `FieldMappingState` TypedDict of `Orchestrator.py` lines 21-30. -/
structure FieldMappingState where
  field_maps : List (String × List (String × String))
  analysis_complete : Bool
  etl_complete : Bool
  current_vendor : String
  vendor_headers : List String
  vendor_samples : List String
  target_headers : List String
  target_samples : List String
  transformed_data : String
deriving DecidableEq, Repr

/-- `f"{vendor}_mappings.csv"` (`Orchestrator.py` lines 71, 82). -/
def mappingPath (vendor : String) : String := vendor ++ "_mappings.csv"

/-- `f"{vendor}_transformed.csv"` (`Orchestrator.py` line 83). -/
def outputPath (vendor : String) : String := vendor ++ "_transformed.csv"

/-- The mapping artifact written by `analyze_fields` line 72:
`pd.DataFrame(field_mappings.items(), columns=['vendor_field',
'target_field'])`, one row per entry. -/
def mappingTable (m : List (String × String)) : Table :=
  ⟨["vendor_field", "target_field"], m.map (fun p => [p.1, p.2])⟩

/-- `pd.read_csv(path)` preceded by the existence check: `none` models the
missing-file exception path. -/
def fsRead (fs : FS) (path : String) : Option Table := dictLookup fs path

/-- `df.to_csv(path, index=False)`: overwrite the file at `path`. -/
def fsWrite (fs : FS) (path : String) (t : Table) : FS := dictInsert fs path t

/-- `Orchestrator.py` lines 43-77, `analyze_fields`: run the matching loop
over the vendor headers, merge the result into the multi-vendor
`field_maps`, persist the artifact, and set `analysis_complete`. -/
def analyze_fields (oracle : Oracle) (state : FieldMappingState) (fs : FS) :
    FieldMappingState × FS :=
  let field_mappings := analyzeLoop oracle state.vendor_headers
  ({ state with
      field_maps := dictInsert state.field_maps state.current_vendor field_mappings,
      analysis_complete := true },
   fsWrite fs (mappingPath state.current_vendor) (mappingTable field_mappings))

/-- `df['name']` column access: `none` models the pandas `KeyError` when
the header is absent; otherwise the column's cells in row order. -/
def column? (t : Table) (name : String) : Option (List String) :=
  (t.headers.findIdx? (fun h => h == name)).map
    (fun i => t.rows.map (fun r => r.getD i ""))

/-- `df.rename(columns=mapping)`: each header that is a key of `mapping`
is replaced by its target; all other headers and every row are untouched
(`Orchestrator.py` line 95). -/
def renameColumns (t : Table) (mapping : List (String × String)) : Table :=
  { t with headers := t.headers.map (fun h => (dictLookup mapping h).getD h) }

/-- The error taxonomy of spec section 7 as raised by the code:
`sourceNotFound` / `mappingNotFound` are the two `FileNotFoundError`s of
`perform_etl`, `schemaReadError` the `pd.read_csv` failure in
`read_csv_schema`, `keyError` the pandas `KeyError` on a missing artifact
column. -/
inductive PipelineError
  | sourceNotFound
  | mappingNotFound
  | schemaReadError
  | keyError
deriving DecidableEq, Repr

/-- `Orchestrator.py` lines 80-102, `perform_etl`: read the fixed
`"vendor.csv"` source (line 81 hardcodes the name), read the current
vendor's mapping artifact, build the dict from its two columns, rename,
and write the output file.  Errors return the filesystem unchanged: the
exceptions are raised before anything is written. -/
def perform_etl (state : FieldMappingState) (fs : FS) :
    Except PipelineError FieldMappingState × FS :=
  match fsRead fs "vendor.csv" with
  | none => (.error .sourceNotFound, fs)
  | some vendor_df =>
    match fsRead fs (mappingPath state.current_vendor) with
    | none => (.error .mappingNotFound, fs)
    | some mapping_df =>
      match column? mapping_df "vendor_field", column? mapping_df "target_field" with
      | some vcol, some tcol =>
        let field_mapping := dictOfZip vcol tcol
        let transformed_df := renameColumns vendor_df field_mapping
        (.ok { state with
                etl_complete := true,
                transformed_data := outputPath state.current_vendor },
         fsWrite fs (outputPath state.current_vendor) transformed_df)
      | _, _ => (.error .keyError, fs)

/-- The mapping-artifact reader embedded in `perform_etl` lines 92-94
(`pd.read_csv(mapping_file)` then `dict(zip(...))`), which is also spec
4.3's `MappingStore.load`. -/
def loadMapping (fs : FS) (vendor : String) : Option (List (String × String)) :=
  match fsRead fs (mappingPath vendor) with
  | none => none
  | some mapping_df =>
    match column? mapping_df "vendor_field", column? mapping_df "target_field" with
    | some vcol, some tcol => some (dictOfZip vcol tcol)
    | _, _ => none

/-- `df.iloc[0].tolist() if not df.empty else [""] * len(headers)`
(`Orchestrator.py` line 38). -/
def sampleRow (t : Table) : List String :=
  match t.rows with
  | [] => t.headers.map (fun _ => "")
  | r :: _ => r

/-- `Orchestrator.py` lines 34-40, `read_csv_schema`: headers and a sample
row; a missing/unreadable file raises (spec's SchemaReadError). -/
def read_csv_schema (fs : FS) (file_path : String) :
    Except PipelineError (List String × List String) :=
  match fsRead fs file_path with
  | none => .error .schemaReadError
  | some df => .ok (df.headers, sampleRow df)

/-- The initial `FieldMappingState` literal of `Orchestrator.py` lines
133-144. -/
def initialState (vendor_name : String)
    (vendor_headers vendor_samples target_headers target_samples : List String) :
    FieldMappingState :=
  { field_maps := []
    analysis_complete := false
    etl_complete := false
    current_vendor := vendor_name
    vendor_headers := vendor_headers
    vendor_samples := vendor_samples
    target_headers := target_headers
    target_samples := target_samples
    transformed_data := "" }

/-- `chain.invoke(state)`: the compiled StateGraph runs `analyze_fields`
(entry point), then the edge to `perform_etl`, then END, returning
`final_state['transformed_data']`; an exception in a node propagates. -/
def runChain (oracle : Oracle) (state : FieldMappingState) (fs : FS) :
    Except PipelineError (String × FS) :=
  let afterAnalyze := analyze_fields oracle state fs
  match perform_etl afterAnalyze.1 afterAnalyze.2 with
  | (.ok finalState, fs') => .ok (finalState.transformed_data, fs')
  | (.error e, _) => .error e

/-- `Orchestrator.py` lines 106-148, `generate_mapping_template`: read both
schemas, normalize the vendor headers only (line 131), build the initial
state, and invoke the two-node workflow. -/
def generate_mapping_template (oracle : Oracle)
    (vendor_file target_file vendor_name : String) (fs : FS) :
    Except PipelineError (String × FS) :=
  match read_csv_schema fs vendor_file with
  | .error e => .error e
  | .ok (vendor_headers, vendor_samples) =>
    match read_csv_schema fs target_file with
    | .error e => .error e
    | .ok (target_headers, target_samples) =>
      runChain oracle
        (initialState vendor_name (vendor_headers.map normalizeHeader)
          vendor_samples target_headers target_samples) fs

/-- The pipeline stages of spec 4.5. -/
inductive Stage
  | MAPPING
  | TRANSFORM
  | DONE
deriving DecidableEq, Repr

/-- Linear order of the stages, for stating that no backward transition
occurs. -/
def stageIdx : Stage → Nat
  | .MAPPING => 0
  | .TRANSFORM => 1
  | .DONE => 2

/-- The sequence of stages a run enters: the StateGraph's entry point is
`analyze_fields` (MAPPING); the unconditional edge then enters
`perform_etl` (TRANSFORM); END (DONE) is reached only if the transform
returns, a raised error aborting the run fail-fast. -/
def runTrace (oracle : Oracle) (state : FieldMappingState) (fs : FS) :
    List Stage :=
  let afterAnalyze := analyze_fields oracle state fs
  match (perform_etl afterAnalyze.1 afterAnalyze.2).1 with
  | .ok _ => [.MAPPING, .TRANSFORM, .DONE]
  | .error _ => [.MAPPING, .TRANSFORM]

namespace Eureka

/-- `Eureka/orch.py` lines 26-30, `read_vendor_schema`:
`df['Field Name'].tolist()` — the column's values returned verbatim, with
no normalization anywhere on this path; `none` models the pandas
`KeyError` when the column is absent. -/
def read_vendor_schema (df : Table) : Option (List String) :=
  column? df "Field Name"

end Eureka

/-- A vendor-schema table whose single `Field Name` column holds the given
names, for exercising the Eureka reader. -/
def fieldNameTable (names : List String) : Table :=
  ⟨["Field Name"], names.map (fun n => [n])⟩

/-- One line of the serialized CSV file. -/
def csvLine (cells : List String) : String := String.intercalate "," cells

/-- The bytes `df.to_csv(..., index=False)` writes for a table: header
line then one line per row. -/
def csvSerialize (t : Table) : String :=
  String.intercalate "\n" (csvLine t.headers :: t.rows.map csvLine) ++ "\n"

/-- The entry the loop contributes for one vendor field: present exactly
when inference succeeded for that field. -/
def matchEntry (oracle : Oracle) (f : String) : Option (String × String) :=
  (matchOutcome oracle f).map (fun t => (f, t))

/-- Whether the transform returned normally (didn't raise). -/
def etlSucceeded : Except PipelineError FieldMappingState → Bool
  | .ok _ => true
  | .error _ => false

/-! ### Concrete inputs used by the witnesses and counterexamples -/

/-- Oracle replying with a well-formed single-entry dict for `cust_nm` and
malformed JSON for everything else. -/
def oracleW1 : Oracle := fun f =>
  if f == "cust_nm" then .dict [("cust_nm", "customer_name")] else .parseError

/-- Oracle replying with a well-formed dict for `cust_nm` and a JSON
non-dict for everything else. -/
def oracleW4 : Oracle := fun f =>
  if f == "cust_nm" then .dict [("cust_nm", "customer_name")] else .nonDict

/-- Oracle whose reply dict is keyed by `"a"` regardless of the query. -/
def oracleDup : Oracle := fun _ => .dict [("a", "t")]

/-- Oracle whose replies never parse. -/
def oracleFail : Oracle := fun _ => .parseError

/-- Oracle resolving the normalized header `"cust nm"`. -/
def oracleW9 : Oracle := fun f =>
  if f == "cust nm" then .dict [("cust nm", "customer_name")] else .parseError

/-- A concrete `vendor.csv` source table. -/
def srcW : Table := ⟨["cust_nm", "addr1"], [["Acme", "1 Main St"]]⟩

/-- A source table whose raw header differs from its normalized form. -/
def srcW9 : Table := ⟨["Cust NM"], [["Acme"]]⟩

/-- A concrete pipeline state for vendor `Vendor_A`. -/
def stW : FieldMappingState :=
  initialState "Vendor_A" ["cust_nm", "addr1"] ["Acme", "1 Main St"] [] []

/-- A directory holding the source and an artifact with zero entries. -/
def emptyArtifactFS : FS :=
  [("vendor.csv", srcW), ("Vendor_A_mappings.csv", mappingTable [])]

/-- A directory holding only the source: no mapping stage has run. -/
def noArtifactFS : FS := [("vendor.csv", srcW)]

/-- A two-entry mapping artifact for `Vendor_A`. -/
def mdfW : Table :=
  mappingTable [("cust_nm", "customer_name"), ("addr1", "address_line_1")]

/-- A directory with the source and the two-entry artifact. -/
def etlFS : FS := [("vendor.csv", srcW), ("Vendor_A_mappings.csv", mdfW)]

/-- A concrete vendor schema file with an un-normalized header. -/
def vendorSchemaW : Table := ⟨[" Cust NM", "Addr1"], [["Acme", "1 Main St"]]⟩

/-- A concrete target schema file. -/
def targetSchemaW : Table :=
  ⟨["customer_name", "address_line_1"], [["Full legal name", "Street address"]]⟩

/-- A directory with both schema files and the fixed source file. -/
def schemaFS : FS :=
  [("column.csv", vendorSchemaW), ("customers.csv", targetSchemaW),
   ("vendor.csv", srcW)]

/-! ### Association-list (Python dict) lemmas -/

theorem dictLookup_dictInsert_self {α : Type} (d : List (String × α)) (k : String) (v : α) :
    dictLookup (dictInsert d k v) k = some v := by
  induction d with
  | nil => simp [dictInsert, dictLookup]
  | cons p rest ih =>
    by_cases h : p.1 = k
    · simp [dictInsert, h, dictLookup]
    · simp [dictInsert, h, dictLookup, ih]

theorem dictLookup_dictInsert_ne {α : Type} (d : List (String × α)) (k k' : String) (v : α)
    (h : k' ≠ k) : dictLookup (dictInsert d k v) k' = dictLookup d k' := by
  induction d with
  | nil => simp [dictInsert, dictLookup, Ne.symm h]
  | cons p rest ih =>
    by_cases hp : p.1 = k
    · simp [dictInsert, hp, dictLookup, Ne.symm h]
    · simp [dictInsert, hp, dictLookup, ih]

theorem dictInsert_of_lookup_none {α : Type} (d : List (String × α)) (k : String) (v : α)
    (h : dictLookup d k = none) : dictInsert d k v = d ++ [(k, v)] := by
  induction d with
  | nil => rfl
  | cons p rest ih =>
    by_cases hp : p.1 = k
    · simp [dictLookup, hp] at h
    · simp only [dictLookup, if_neg hp] at h
      simp [dictInsert, hp, ih h]

theorem length_dictInsert_of_lookup_none {α : Type} (d : List (String × α)) (k : String)
    (v : α) (h : dictLookup d k = none) : (dictInsert d k v).length = d.length + 1 := by
  rw [dictInsert_of_lookup_none d k v h]
  simp

theorem dictLookup_eq_none_of_not_mem_keys {α : Type} (d : List (String × α)) (k : String)
    (h : k ∉ d.map Prod.fst) : dictLookup d k = none := by
  induction d with
  | nil => rfl
  | cons p rest ih =>
    simp only [List.map_cons, List.mem_cons, not_or] at h
    have hne : p.1 ≠ k := fun e => h.1 e.symm
    simp [dictLookup, hne, ih h.2]

theorem mem_keys_dictInsert {α : Type} (d : List (String × α)) (k : String) (v : α)
    (x : String) (h : x ∈ (dictInsert d k v).map Prod.fst) :
    x ∈ d.map Prod.fst ∨ x = k := by
  induction d with
  | nil =>
    simp [dictInsert] at h
    exact Or.inr h
  | cons p rest ih =>
    by_cases hp : p.1 = k
    · simp only [dictInsert, if_pos hp, List.map_cons, List.mem_cons] at h
      rcases h with h | h
      · exact Or.inr h
      · exact Or.inl (by simp [h])
    · simp only [dictInsert, if_neg hp, List.map_cons, List.mem_cons] at h
      rcases h with h | h
      · exact Or.inl (by simp [h])
      · rcases ih h with h' | h'
        · exact Or.inl (by simp [h'])
        · exact Or.inr h'

theorem keysNodup_dictInsert {α : Type} (d : List (String × α)) (k : String) (v : α)
    (h : KeysNodup d) : KeysNodup (dictInsert d k v) := by
  induction d with
  | nil => simp [KeysNodup, dictInsert]
  | cons p rest ih =>
    unfold KeysNodup at h ih ⊢
    simp only [List.map_cons, List.nodup_cons] at h
    by_cases hp : p.1 = k
    · simp only [dictInsert, if_pos hp, List.map_cons, List.nodup_cons]
      exact ⟨fun hm => h.1 (hp ▸ hm), h.2⟩
    · simp only [dictInsert, if_neg hp, List.map_cons, List.nodup_cons]
      refine ⟨fun hm => ?_, ih h.2⟩
      rcases mem_keys_dictInsert rest k v p.1 hm with h' | h'
      · exact h.1 h'
      · exact hp h'

theorem zipKeysValues {α β : Type} (l : List (α × β)) :
    (l.map Prod.fst).zip (l.map Prod.snd) = l := by
  induction l with
  | nil => rfl
  | cons p t ih => simp [ih]

theorem foldl_dictInsert_eq_append (l : List (String × String)) :
    ∀ acc : List (String × String), (∀ p ∈ l, dictLookup acc p.1 = none) →
      KeysNodup l →
      l.foldl (fun d p => dictInsert d p.1 p.2) acc = acc ++ l := by
  induction l with
  | nil =>
    intro acc _ _
    simp
  | cons q t ih =>
    intro acc hd hnd
    have hq : dictLookup acc q.1 = none := hd q (List.mem_cons_self q t)
    have hnd1 : q.1 ∉ t.map Prod.fst := by
      have := hnd
      unfold KeysNodup at this
      simp only [List.map_cons, List.nodup_cons] at this
      exact this.1
    have hnd2 : KeysNodup t := by
      have := hnd
      unfold KeysNodup at this ⊢
      simp only [List.map_cons, List.nodup_cons] at this
      exact this.2
    have hd' : ∀ p ∈ t, dictLookup (dictInsert acc q.1 q.2) p.1 = none := by
      intro p hp
      have hne : p.1 ≠ q.1 := by
        intro e
        exact hnd1 (e ▸ List.mem_map_of_mem Prod.fst hp)
      rw [dictLookup_dictInsert_ne acc q.1 p.1 q.2 hne]
      exact hd p (List.mem_cons_of_mem q hp)
    calc (q :: t).foldl (fun d p => dictInsert d p.1 p.2) acc
        = t.foldl (fun d p => dictInsert d p.1 p.2) (dictInsert acc q.1 q.2) := rfl
      _ = dictInsert acc q.1 q.2 ++ t := ih _ hd' hnd2
      _ = (acc ++ [q]) ++ t := by rw [dictInsert_of_lookup_none acc q.1 q.2 hq]
      _ = acc ++ q :: t := by simp

theorem dictOfZip_roundtrip (m : List (String × String)) (h : KeysNodup m) :
    dictOfZip (m.map Prod.fst) (m.map Prod.snd) = m := by
  unfold dictOfZip
  rw [zipKeysValues]
  simpa using foldl_dictInsert_eq_append m [] (fun p _ => rfl) h

/-! ### Matching-loop lemmas -/

theorem matchFieldStep_eq (oracle : Oracle) (fm : List (String × String)) (vf : String) :
    matchFieldStep oracle fm vf =
      match matchOutcome oracle vf with
      | some target => dictInsert fm vf target
      | none => fm := by
  unfold matchFieldStep matchOutcome
  cases oracle vf with
  | parseError => rfl
  | nonDict => rfl
  | dict entries => cases dictLookup entries vf <;> rfl

theorem keysNodup_matchFieldStep (oracle : Oracle) (fm : List (String × String))
    (vf : String) (h : KeysNodup fm) : KeysNodup (matchFieldStep oracle fm vf) := by
  rw [matchFieldStep_eq]
  cases matchOutcome oracle vf with
  | some target => exact keysNodup_dictInsert fm vf target h
  | none => exact h

theorem keysNodup_analyzeLoop (oracle : Oracle) (fields : List String) :
    KeysNodup (analyzeLoop oracle fields) := by
  have main : ∀ acc, KeysNodup acc →
      KeysNodup (fields.foldl (matchFieldStep oracle) acc) := by
    induction fields with
    | nil => exact fun acc h => h
    | cons f t ih =>
      exact fun acc h => ih _ (keysNodup_matchFieldStep oracle acc f h)
  exact main [] (by simp [KeysNodup])

theorem foldl_matchFieldStep_eq (oracle : Oracle) (fields : List String) :
    ∀ acc : List (String × String), (∀ f ∈ fields, dictLookup acc f = none) →
      fields.Nodup →
      fields.foldl (matchFieldStep oracle) acc =
        acc ++ fields.filterMap (matchEntry oracle) := by
  induction fields with
  | nil =>
    intro acc _ _
    simp
  | cons f t ih =>
    intro acc hd hnd
    have hf : dictLookup acc f = none := hd f (List.mem_cons_self f t)
    rw [List.foldl_cons, matchFieldStep_eq]
    cases ho : matchOutcome oracle f with
    | none =>
      simp only
      rw [ih acc (fun g hg => hd g (List.mem_cons_of_mem f hg)) (List.nodup_cons.mp hnd).2]
      simp [List.filterMap_cons, matchEntry, ho]
    | some target =>
      simp only
      have hd' : ∀ g ∈ t, dictLookup (dictInsert acc f target) g = none := by
        intro g hg
        have hgf : g ≠ f := by
          intro e
          exact (List.nodup_cons.mp hnd).1 (e ▸ hg)
        rw [dictLookup_dictInsert_ne acc f g target hgf]
        exact hd g (List.mem_cons_of_mem f hg)
      rw [ih _ hd' (List.nodup_cons.mp hnd).2,
        dictInsert_of_lookup_none acc f target hf]
      simp [List.filterMap_cons, matchEntry, ho]

theorem analyzeLoop_eq_filterMap (oracle : Oracle) (fields : List String)
    (h : fields.Nodup) :
    analyzeLoop oracle fields = fields.filterMap (matchEntry oracle) := by
  simpa [analyzeLoop] using foldl_matchFieldStep_eq oracle fields [] (fun f _ => rfl) h

theorem length_filterMap_matchEntry (oracle : Oracle) (fields : List String) :
    (fields.filterMap (matchEntry oracle)).length + failureCount oracle fields =
      fields.length := by
  induction fields with
  | nil => rfl
  | cons f t ih =>
    unfold failureCount at ih ⊢
    cases ho : matchOutcome oracle f with
    | none =>
      simp [List.filterMap_cons, matchEntry, ho, List.filter_cons]
      omega
    | some target =>
      simp [List.filterMap_cons, matchEntry, ho, List.filter_cons]
      omega

theorem dictLookup_filterMap_matchEntry (oracle : Oracle) (fields : List String)
    (f target : String) (hnd : fields.Nodup) (hmem : f ∈ fields)
    (ho : matchOutcome oracle f = some target) :
    dictLookup (fields.filterMap (matchEntry oracle)) f = some target := by
  induction fields with
  | nil => cases hmem
  | cons a t ih =>
    rcases List.mem_cons.mp hmem with rfl | hmem'
    · simp [List.filterMap_cons, matchEntry, ho, dictLookup]
    · have ha : a ≠ f := by
        rintro rfl
        exact (List.nodup_cons.mp hnd).1 hmem'
      cases hoa : matchOutcome oracle a with
      | none =>
        simp only [List.filterMap_cons, matchEntry, hoa, Option.map_none]
        exact ih (List.nodup_cons.mp hnd).2 hmem'
      | some u =>
        simp only [List.filterMap_cons, matchEntry, hoa, Option.map_some, dictLookup,
          if_neg ha]
        exact ih (List.nodup_cons.mp hnd).2 hmem'

theorem dictLookup_foldl_matchFieldStep_none (oracle : Oracle) (fields : List String)
    (h : String) : ∀ acc, dictLookup acc h = none → h ∉ fields →
      dictLookup (fields.foldl (matchFieldStep oracle) acc) h = none := by
  induction fields with
  | nil => exact fun acc ha _ => ha
  | cons f t ih =>
    intro acc ha hm
    have hf : h ≠ f := fun e => hm (e ▸ List.mem_cons_self f t)
    have hstep : dictLookup (matchFieldStep oracle acc f) h = none := by
      rw [matchFieldStep_eq]
      cases ho : matchOutcome oracle f with
      | none => exact ha
      | some target =>
        simp only
        rw [dictLookup_dictInsert_ne acc f h target hf]
        exact ha
    exact ih _ hstep (fun hmem => hm (List.mem_cons_of_mem f hmem))

theorem analyzeLoop_lookup_none (oracle : Oracle) (fields : List String) (h : String)
    (hm : h ∉ fields) : dictLookup (analyzeLoop oracle fields) h = none :=
  dictLookup_foldl_matchFieldStep_none oracle fields h [] rfl hm

/-! ### Artifact and filesystem lemmas -/

theorem column?_mappingTable_vendor (m : List (String × String)) :
    column? (mappingTable m) "vendor_field" = some (m.map Prod.fst) := by
  have h1 : (["vendor_field", "target_field"] : List String).findIdx?
      (fun h => h == "vendor_field") = some 0 := by decide
  unfold column? mappingTable
  simp only [h1, List.map_map]
  exact congrArg some (List.map_congr_left (fun p _ => rfl))

theorem column?_mappingTable_target (m : List (String × String)) :
    column? (mappingTable m) "target_field" = some (m.map Prod.snd) := by
  have h1 : (["vendor_field", "target_field"] : List String).findIdx?
      (fun h => h == "target_field") = some 1 := by decide
  unfold column? mappingTable
  simp only [h1, List.map_map]
  exact congrArg some (List.map_congr_left (fun p _ => rfl))

theorem fsRead_fsWrite_self (fs : FS) (path : String) (t : Table) :
    fsRead (fsWrite fs path t) path = some t :=
  dictLookup_dictInsert_self fs path t

theorem fsRead_fsWrite_ne (fs : FS) (path path' : String) (t : Table)
    (h : path' ≠ path) : fsRead (fsWrite fs path t) path' = fsRead fs path' :=
  dictLookup_dictInsert_ne fs path path' t h

theorem mappingPath_ne_vendor_csv (v : String) : mappingPath v ≠ "vendor.csv" := by
  intro h
  have hl : (mappingPath v).length = ("vendor.csv" : String).length := by rw [h]
  unfold mappingPath at hl
  rw [String.length_append] at hl
  have h13 : ("_mappings.csv" : String).length = 13 := by decide
  have h10 : ("vendor.csv" : String).length = 10 := by decide
  rw [h13, h10] at hl
  omega

theorem runChain_source_missing (oracle : Oracle) (state : FieldMappingState) (fs : FS)
    (h : fsRead fs "vendor.csv" = none) :
    runChain oracle state fs = .error .sourceNotFound := by
  have h' : fsRead (fsWrite fs (mappingPath state.current_vendor)
      (mappingTable (analyzeLoop oracle state.vendor_headers))) "vendor.csv" = none := by
    rw [fsRead_fsWrite_ne _ _ _ _ (Ne.symm (mappingPath_ne_vendor_csv state.current_vendor))]
    exact h
  simp only [runChain, analyze_fields, perform_etl, h']

theorem runChain_success (oracle : Oracle) (state : FieldMappingState) (fs : FS)
    (src : Table) (h : fsRead fs "vendor.csv" = some src) :
    runChain oracle state fs =
      .ok (outputPath state.current_vendor,
        fsWrite
          (fsWrite fs (mappingPath state.current_vendor)
            (mappingTable (analyzeLoop oracle state.vendor_headers)))
          (outputPath state.current_vendor)
          (renameColumns src (analyzeLoop oracle state.vendor_headers))) := by
  have hsrc1 : fsRead (fsWrite fs (mappingPath state.current_vendor)
      (mappingTable (analyzeLoop oracle state.vendor_headers))) "vendor.csv" = some src := by
    rw [fsRead_fsWrite_ne _ _ _ _ (Ne.symm (mappingPath_ne_vendor_csv state.current_vendor))]
    exact h
  have hmap1 : fsRead (fsWrite fs (mappingPath state.current_vendor)
      (mappingTable (analyzeLoop oracle state.vendor_headers)))
      (mappingPath state.current_vendor) =
      some (mappingTable (analyzeLoop oracle state.vendor_headers)) :=
    fsRead_fsWrite_self _ _ _
  simp only [runChain, analyze_fields, perform_etl, hsrc1, hmap1,
    column?_mappingTable_vendor, column?_mappingTable_target,
    dictOfZip_roundtrip _ (keysNodup_analyzeLoop oracle state.vendor_headers)]

/-! ### Claim theorems -/

/-- C1: one iteration of the matching loop (`analyze_fields`,
`Orchestrator.py` lines 52-67).  When the oracle reply decodes to a dict
containing the queried vendor field, exactly the binding for that field is
stored: the mapping becomes `dictInsert` of that one entry, the queried
field now maps to the returned target, every other key is untouched, and
the entry count grows by one when the field was not yet present.  On
decode failure or a missing key the mapping is returned unchanged; the
step is a total function (no exception escapes) and the fold then
continues with the remaining vendor fields. -/
theorem matching_loop_per_field (oracle : Oracle) (fm : List (String × String))
    (vf : String) :
    (∀ entries target, oracle vf = .dict entries →
      dictLookup entries vf = some target →
      matchFieldStep oracle fm vf = dictInsert fm vf target ∧
      dictLookup (matchFieldStep oracle fm vf) vf = some target ∧
      (∀ k, k ≠ vf → dictLookup (matchFieldStep oracle fm vf) k = dictLookup fm k) ∧
      (dictLookup fm vf = none →
        (matchFieldStep oracle fm vf).length = fm.length + 1)) ∧
    (matchOutcome oracle vf = none → matchFieldStep oracle fm vf = fm) ∧
    (∀ rest : List String, (vf :: rest).foldl (matchFieldStep oracle) fm =
      rest.foldl (matchFieldStep oracle) (matchFieldStep oracle fm vf)) := by
  refine ⟨?_, ?_, fun rest => rfl⟩
  · intro entries target he ht
    have hstep : matchFieldStep oracle fm vf = dictInsert fm vf target := by
      unfold matchFieldStep
      rw [he]
      simp only [ht]
    refine ⟨hstep, ?_, ?_, ?_⟩
    · rw [hstep]
      exact dictLookup_dictInsert_self fm vf target
    · intro k hk
      rw [hstep]
      exact dictLookup_dictInsert_ne fm vf k target hk
    · intro hn
      rw [hstep]
      exact length_dictInsert_of_lookup_none fm vf target hn
  · intro ho
    rw [matchFieldStep_eq, ho]

/-- Witness for the per-field matching theorem: a field whose reply is a
well-formed dict gains exactly its entry, and a field whose reply fails to
parse leaves the mapping empty. -/
theorem matching_loop_per_field_witness :
    matchFieldStep oracleW1 [] "cust_nm" = dictInsert [] "cust_nm" "customer_name" ∧
    matchFieldStep oracleW1 [] "addr1" = [] := by
  refine ⟨?_, ?_⟩
  · exact ((matching_loop_per_field oracleW1 [] "cust_nm").1
      [("cust_nm", "customer_name")] "customer_name" (by decide) (by decide)).1
  · exact (matching_loop_per_field oracleW1 [] "addr1").2.1 (by decide)

/-- C2 counterexample: with the source file present and a mapping artifact
that exists but holds no entries, `perform_etl` does not fail with the
missing-mapping error — `Orchestrator.py` line 88 only checks
`os.path.exists` — and it writes the output file. -/
theorem transform_empty_artifact_proceeds :
    fsRead emptyArtifactFS (mappingPath stW.current_vendor) = some (mappingTable []) ∧
    etlSucceeded (perform_etl stW emptyArtifactFS).1 = true ∧
    fsRead (perform_etl stW emptyArtifactFS).2 "Vendor_A_transformed.csv" = some srcW := by
  refine ⟨by decide, by decide, by decide⟩

/-- C2 (amended): when the source file exists and the mapping artifact is
absent, `perform_etl` fails with the missing-mapping error and returns the
directory unchanged — in particular no output file is written; invoking
the transform before any mapping stage has run for the vendor is exactly
this case.  An artifact that exists but contains no entries does not
trigger the failure (see the counterexample): only absence does. -/
theorem transform_missing_artifact_fails (state : FieldMappingState) (fs : FS)
    (src : Table) (hsrc : fsRead fs "vendor.csv" = some src)
    (hmap : fsRead fs (mappingPath state.current_vendor) = none) :
    perform_etl state fs = (.error .mappingNotFound, fs) := by
  unfold perform_etl
  rw [hsrc, hmap]

/-- Witness: transforming with only the source present fails with the
missing-mapping error and leaves the directory untouched. -/
theorem transform_missing_artifact_fails_witness :
    perform_etl stW noArtifactFS = (.error .mappingNotFound, noArtifactFS) :=
  transform_missing_artifact_fails stW noArtifactFS srcW (by decide) (by decide)

/-- C3: for every source table and mapping artifact, the output written by
`perform_etl` is `renameColumns` of the source under the dict built from
the artifact's two columns: each source header that is a key of the
mapping is renamed to its target, each header not in the mapping is kept
verbatim at its position, and the rows — hence all values, in order, one
output row per source row — are exactly the source's. -/
theorem transform_rename_semantics (state : FieldMappingState) (fs : FS)
    (src mdf : Table) (vcol tcol : List String)
    (hsrc : fsRead fs "vendor.csv" = some src)
    (hmap : fsRead fs (mappingPath state.current_vendor) = some mdf)
    (hv : column? mdf "vendor_field" = some vcol)
    (ht : column? mdf "target_field" = some tcol) :
    fsRead (perform_etl state fs).2 (outputPath state.current_vendor) =
      some (renameColumns src (dictOfZip vcol tcol)) ∧
    (renameColumns src (dictOfZip vcol tcol)).rows = src.rows ∧
    (∀ i : Nat, (renameColumns src (dictOfZip vcol tcol)).headers[i]? =
      (src.headers[i]?).map (fun h => (dictLookup (dictOfZip vcol tcol) h).getD h)) := by
  refine ⟨?_, rfl, fun i => ?_⟩
  · simp only [perform_etl, hsrc, hmap, hv, ht]
    exact fsRead_fsWrite_self _ _ _
  · unfold renameColumns
    exact List.getElem?_map _ _ _

/-- Witness for the transform semantics: the end-to-end example of spec
section 8 item 6, renaming `cust_nm`/`addr1` to the target names. -/
theorem transform_rename_semantics_witness :
    fsRead (perform_etl stW etlFS).2 (outputPath stW.current_vendor) =
      some (renameColumns srcW
        (dictOfZip ["cust_nm", "addr1"] ["customer_name", "address_line_1"])) ∧
    renameColumns srcW
        (dictOfZip ["cust_nm", "addr1"] ["customer_name", "address_line_1"]) =
      ⟨["customer_name", "address_line_1"], [["Acme", "1 Main St"]]⟩ := by
  refine ⟨(transform_rename_semantics stW etlFS srcW mdfW ["cust_nm", "addr1"]
    ["customer_name", "address_line_1"] (by decide) (by decide) (by decide)
    (by decide)).1, by decide⟩

/-- C4 counterexample: two equal vendor fields (as arise when distinct raw
headers normalize to the same name) with zero failed inference calls yield
one mapping entry, not `n - k = 2`: the Python dict collapses the
duplicate key. -/
theorem partial_failure_bound_counterexample :
    failureCount oracleDup ["a", "a"] = 0 ∧
    (analyzeLoop oracleDup ["a", "a"]).length = 1 ∧
    (["a", "a"] : List String).length - failureCount oracleDup ["a", "a"] = 2 := by
  refine ⟨by decide, by decide, by decide⟩

/-- C4 (amended): when the `n` vendor fields are pairwise distinct and `k`
of the `n` inference calls fail, the resulting mapping has exactly `n - k`
entries (with duplicated field names, successful duplicates collapse into
a single entry, so the count can be smaller); and the pipeline advances to
the TRANSFORM stage in every run regardless. -/
theorem partial_failure_bound (oracle : Oracle) (fields : List String)
    (hnd : fields.Nodup) :
    (analyzeLoop oracle fields).length = fields.length - failureCount oracle fields ∧
    (∀ state fs, Stage.TRANSFORM ∈ runTrace oracle state fs) := by
  constructor
  · rw [analyzeLoop_eq_filterMap oracle fields hnd]
    have h := length_filterMap_matchEntry oracle fields
    omega
  · intro state fs
    unfold runTrace
    cases h : (perform_etl (analyze_fields oracle state fs).1
        (analyze_fields oracle state fs).2).1 <;> simp [h]

/-- Witness for the partial-failure bound: two distinct fields, one
succeeding and one failing, give a single-entry mapping (`n - k = 1`). -/
theorem partial_failure_bound_witness :
    (analyzeLoop oracleW4 ["cust_nm", "addr1"]).length =
      (["cust_nm", "addr1"] : List String).length -
        failureCount oracleW4 ["cust_nm", "addr1"] ∧
    Stage.TRANSFORM ∈ runTrace oracleW4 stW noArtifactFS := by
  have h := partial_failure_bound oracleW4 ["cust_nm", "addr1"] (by decide)
  exact ⟨h.1, h.2 stW noArtifactFS⟩

/-- C5: the transform node always runs on the post-mapping state.
`runChain` applies `perform_etl` to the output of `analyze_fields`, whose
state has the completion flag set and whose directory holds the persisted
artifact — with zero rows when nothing matched, and the stage still
advances to TRANSFORM in that case.  The stage sequence of every run is
strictly forward (MAPPING first, no backward transition). -/
theorem transform_only_after_mapping (oracle : Oracle) (state : FieldMappingState)
    (fs : FS) :
    ((analyze_fields oracle state fs).1).analysis_complete = true ∧
    fsRead (analyze_fields oracle state fs).2 (mappingPath state.current_vendor) =
      some (mappingTable (analyzeLoop oracle state.vendor_headers)) ∧
    runChain oracle state fs =
      (match perform_etl (analyze_fields oracle state fs).1
          (analyze_fields oracle state fs).2 with
        | (.ok finalState, fs') => .ok (finalState.transformed_data, fs')
        | (.error e, _) => .error e) ∧
    (analyzeLoop oracle state.vendor_headers = [] →
      fsRead (analyze_fields oracle state fs).2 (mappingPath state.current_vendor) =
        some (mappingTable []) ∧ Stage.TRANSFORM ∈ runTrace oracle state fs) ∧
    List.Chain' (fun a b => stageIdx a < stageIdx b) (runTrace oracle state fs) ∧
    (runTrace oracle state fs).head? = some Stage.MAPPING := by
  have hart : fsRead (analyze_fields oracle state fs).2
      (mappingPath state.current_vendor) =
      some (mappingTable (analyzeLoop oracle state.vendor_headers)) := by
    unfold analyze_fields
    exact fsRead_fsWrite_self _ _ _
  refine ⟨rfl, hart, rfl, ?_, ?_, ?_⟩
  · intro hz
    refine ⟨by rw [hart, hz], ?_⟩
    unfold runTrace
    cases h : (perform_etl (analyze_fields oracle state fs).1
        (analyze_fields oracle state fs).2).1 <;> simp [h]
  · unfold runTrace
    cases h : (perform_etl (analyze_fields oracle state fs).1
        (analyze_fields oracle state fs).2).1 <;> simp [h, stageIdx]
  · unfold runTrace
    cases h : (perform_etl (analyze_fields oracle state fs).1
        (analyze_fields oracle state fs).2).1 <;> simp [h]

/-- Witness: a run in which every inference call fails still persists the
(empty) artifact and still enters the TRANSFORM stage. -/
theorem transform_only_after_mapping_witness :
    fsRead (analyze_fields oracleFail stW noArtifactFS).2
        (mappingPath stW.current_vendor) = some (mappingTable []) ∧
    Stage.TRANSFORM ∈ runTrace oracleFail stW noArtifactFS :=
  (transform_only_after_mapping oracleFail stW noArtifactFS).2.2.2.1 (by decide)

/-- C6 counterexample: the Eureka reader (`Eureka/orch.py` lines 26-30),
cited by the claim, returns vendor field names verbatim — `" Name"` flows
to matching unchanged, not trimmed and lower-cased to `"name"` as the
claim requires of every vendor field name. -/
theorem vendor_normalization_counterexample :
    Eureka.read_vendor_schema (fieldNameTable [" Name"]) = some [" Name"] ∧
    normalizeHeader " Name" = "name" ∧
    (" Name" : String) ≠ "name" := by
  refine ⟨by decide, by decide, by decide⟩

/-- C6 (amended): in the main orchestrator, `generate_mapping_template`
normalizes every vendor header (trim + lower-case, `Orchestrator.py` line
131) before the workflow runs while target headers enter verbatim; the
Eureka variant's `read_vendor_schema` performs no normalization,
returning the `Field Name` column's values verbatim. -/
theorem vendor_headers_normalized (oracle : Oracle) (fs : FS)
    (vendor_file target_file vendor_name : String) (vdf tdf : Table)
    (hv : fsRead fs vendor_file = some vdf)
    (ht : fsRead fs target_file = some tdf) :
    generate_mapping_template oracle vendor_file target_file vendor_name fs =
      runChain oracle
        (initialState vendor_name (vdf.headers.map normalizeHeader) (sampleRow vdf)
          tdf.headers (sampleRow tdf)) fs ∧
    (∀ names : List String,
      Eureka.read_vendor_schema (fieldNameTable names) = some names) := by
  constructor
  · unfold generate_mapping_template read_csv_schema
    rw [hv, ht]
  · intro names
    have h1 : (["Field Name"] : List String).findIdx?
        (fun h => h == "Field Name") = some 0 := by decide
    have key : ∀ ns : List String,
        (ns.map (fun n => [n])).map (fun r => r.getD 0 "") = ns := by
      intro ns
      induction ns with
      | nil => rfl
      | cons a t ih => exact congrArg (fun l => a :: l) ih
    unfold Eureka.read_vendor_schema fieldNameTable column?
    simp only [h1]
    exact congrArg some (key names)

/-- Witness: running the pipeline on a concrete schema pair enters the
workflow with vendor headers normalized and target headers verbatim, and
the Eureka reader leaves a concrete un-normalized name untouched. -/
theorem vendor_headers_normalized_witness :
    generate_mapping_template oracleFail "column.csv" "customers.csv" "Vendor_A"
        schemaFS =
      runChain oracleFail
        (initialState "Vendor_A" (vendorSchemaW.headers.map normalizeHeader)
          (sampleRow vendorSchemaW) targetSchemaW.headers (sampleRow targetSchemaW))
        schemaFS ∧
    Eureka.read_vendor_schema (fieldNameTable [" Cust NM"]) = some [" Cust NM"] := by
  have h := vendor_headers_normalized oracleFail schemaFS "column.csv" "customers.csv"
    "Vendor_A" vendorSchemaW targetSchemaW (by decide) (by decide)
  exact ⟨h.1, h.2 [" Cust NM"]⟩

/-- C7: persistence round-trip — for every directory, vendor id and field
mapping with unique keys (as every mapping produced by the Python dict
has), reading the artifact back through the transform's loader recovers
exactly the same key/value pairs. -/
theorem mapping_persist_load_roundtrip (fs : FS) (vendor : String)
    (m : List (String × String)) (hnd : KeysNodup m) :
    loadMapping (fsWrite fs (mappingPath vendor) (mappingTable m)) vendor = some m := by
  unfold loadMapping
  simp only [fsRead_fsWrite_self, column?_mappingTable_vendor,
    column?_mappingTable_target, dictOfZip_roundtrip m hnd]

/-- Witness: the round-trip at a concrete two-entry mapping. -/
theorem mapping_persist_load_roundtrip_witness :
    loadMapping
        (fsWrite [] (mappingPath "Vendor_A")
          (mappingTable [("cust_nm", "customer_name"), ("addr1", "address_line_1")]))
        "Vendor_A" =
      some [("cust_nm", "customer_name"), ("addr1", "address_line_1")] :=
  mapping_persist_load_roundtrip [] "Vendor_A"
    [("cust_nm", "customer_name"), ("addr1", "address_line_1")] (by decide)

/-- C8: the transform is deterministic and depends only on the source file
and the mapping artifact: any two invocations — over any two states and
directories — that agree on `vendor.csv` and on the current vendor's
artifact write output files whose serialized bytes are identical. -/
theorem transform_deterministic (s1 s2 : FieldMappingState) (fs1 fs2 : FS)
    (src mdf : Table) (vcol tcol : List String)
    (h1 : fsRead fs1 "vendor.csv" = some src)
    (h2 : fsRead fs2 "vendor.csv" = some src)
    (hm1 : fsRead fs1 (mappingPath s1.current_vendor) = some mdf)
    (hm2 : fsRead fs2 (mappingPath s2.current_vendor) = some mdf)
    (hc1 : column? mdf "vendor_field" = some vcol)
    (hc2 : column? mdf "target_field" = some tcol) :
    (fsRead (perform_etl s1 fs1).2 (outputPath s1.current_vendor)).map csvSerialize =
      some (csvSerialize (renameColumns src (dictOfZip vcol tcol))) ∧
    (fsRead (perform_etl s1 fs1).2 (outputPath s1.current_vendor)).map csvSerialize =
      (fsRead (perform_etl s2 fs2).2 (outputPath s2.current_vendor)).map csvSerialize := by
  have e1 : fsRead (perform_etl s1 fs1).2 (outputPath s1.current_vendor) =
      some (renameColumns src (dictOfZip vcol tcol)) := by
    simp only [perform_etl, h1, hm1, hc1, hc2]
    exact fsRead_fsWrite_self _ _ _
  have e2 : fsRead (perform_etl s2 fs2).2 (outputPath s2.current_vendor) =
      some (renameColumns src (dictOfZip vcol tcol)) := by
    simp only [perform_etl, h2, hm2, hc1, hc2]
    exact fsRead_fsWrite_self _ _ _
  rw [e1, e2]
  exact ⟨rfl, rfl⟩

/-- Witness: invoking the transform twice on the identical concrete source
and artifact yields the same serialized output bytes. -/
theorem transform_deterministic_witness :
    (fsRead (perform_etl stW etlFS).2 (outputPath stW.current_vendor)).map
        csvSerialize =
      (fsRead (perform_etl stW etlFS).2 (outputPath stW.current_vendor)).map
        csvSerialize :=
  (transform_deterministic stW stW etlFS etlFS srcW mdfW ["cust_nm", "addr1"]
    ["customer_name", "address_line_1"] (by decide) (by decide) (by decide)
    (by decide) (by decide) (by decide)).2

/-- C9: normalization asymmetry at the transform boundary.  The mapping
produced by the loop is keyed by normalized vendor names, but
`renameColumns` looks raw source headers up in it: a raw header `h` that
differs from its own normalized form (over a run whose field names are,
as all normalized names are, fixed points of normalization) is passed
through un-renamed, even though its normalized form holds an entry in the
very same mapping. -/
theorem normalization_asymmetry (oracle : Oracle) (raw : List String) (src : Table)
    (h target : String) (i : Nat)
    (hnd : (raw.map normalizeHeader).Nodup)
    (hfix : ∀ r ∈ raw, normalizeHeader (normalizeHeader r) = normalizeHeader r)
    (hne : h ≠ normalizeHeader h)
    (hmem : normalizeHeader h ∈ raw.map normalizeHeader)
    (hsucc : matchOutcome oracle (normalizeHeader h) = some target)
    (hpos : src.headers[i]? = some h) :
    dictLookup (analyzeLoop oracle (raw.map normalizeHeader)) (normalizeHeader h) =
      some target ∧
    (renameColumns src (analyzeLoop oracle (raw.map normalizeHeader))).headers[i]? =
      some h := by
  have hl : dictLookup (analyzeLoop oracle (raw.map normalizeHeader))
      (normalizeHeader h) = some target := by
    rw [analyzeLoop_eq_filterMap oracle _ hnd]
    exact dictLookup_filterMap_matchEntry oracle _ _ _ hnd hmem hsucc
  have hnotin : h ∉ raw.map normalizeHeader := by
    intro hmem'
    rcases List.mem_map.mp hmem' with ⟨r, hr, he⟩
    have hfx : normalizeHeader h = h := by
      rw [← he]
      exact hfix r hr
    exact hne hfx.symm
  have hnone : dictLookup (analyzeLoop oracle (raw.map normalizeHeader)) h = none :=
    analyzeLoop_lookup_none oracle _ h hnotin
  refine ⟨hl, ?_⟩
  unfold renameColumns
  rw [List.getElem?_map _ _ _, hpos]
  simp [hnone]

/-- Witness: the raw source header `"Cust NM"` stays un-renamed although
its normalized form `"cust nm"` was matched to a target field. -/
theorem normalization_asymmetry_witness :
    dictLookup (analyzeLoop oracleW9 (["Cust NM"].map normalizeHeader))
        (normalizeHeader "Cust NM") = some "customer_name" ∧
    (renameColumns srcW9
        (analyzeLoop oracleW9 (["Cust NM"].map normalizeHeader))).headers[0]? =
      some "Cust NM" :=
  normalization_asymmetry oracleW9 ["Cust NM"] srcW9 "Cust NM" "customer_name" 0
    (by decide) (by decide) (by decide) (by decide) (by decide) (by decide)

/-- C10: the transform always reads the fixed `"vendor.csv"`, regardless
of the `vendor_file` argument of `generate_mapping_template` — that
argument only determines the headers the mapping is inferred from.  With
both schema files readable, the run fails with the missing-source error
when `"vendor.csv"` is absent, whatever `vendor_file` was; and when it is
present, the output written is a rename of that file's table (never of
the `vendor_file` table). -/
theorem transform_reads_fixed_source (oracle : Oracle) (fs : FS)
    (vendor_file target_file vendor_name : String) (vdf tdf : Table)
    (hv : fsRead fs vendor_file = some vdf)
    (ht : fsRead fs target_file = some tdf) :
    (fsRead fs "vendor.csv" = none →
      generate_mapping_template oracle vendor_file target_file vendor_name fs =
        .error .sourceNotFound) ∧
    (∀ src, fsRead fs "vendor.csv" = some src →
      generate_mapping_template oracle vendor_file target_file vendor_name fs =
        .ok (outputPath vendor_name,
          fsWrite
            (fsWrite fs (mappingPath vendor_name)
              (mappingTable (analyzeLoop oracle (vdf.headers.map normalizeHeader))))
            (outputPath vendor_name)
            (renameColumns src
              (analyzeLoop oracle (vdf.headers.map normalizeHeader))))) := by
  have hgen : generate_mapping_template oracle vendor_file target_file vendor_name fs =
      runChain oracle
        (initialState vendor_name (vdf.headers.map normalizeHeader) (sampleRow vdf)
          tdf.headers (sampleRow tdf)) fs := by
    unfold generate_mapping_template read_csv_schema
    rw [hv, ht]
  constructor
  · intro hnone
    rw [hgen]
    exact runChain_source_missing oracle _ fs hnone
  · intro src hsome
    rw [hgen]
    exact runChain_success oracle _ fs src hsome

/-- Witness: a concrete run whose `vendor_file` is `"column.csv"` still
transforms the table stored at `"vendor.csv"`. -/
theorem transform_reads_fixed_source_witness :
    generate_mapping_template oracleFail "column.csv" "customers.csv" "Vendor_A"
        schemaFS =
      .ok (outputPath "Vendor_A",
        fsWrite
          (fsWrite schemaFS (mappingPath "Vendor_A")
            (mappingTable
              (analyzeLoop oracleFail (vendorSchemaW.headers.map normalizeHeader))))
          (outputPath "Vendor_A")
          (renameColumns srcW
            (analyzeLoop oracleFail (vendorSchemaW.headers.map normalizeHeader)))) :=
  (transform_reads_fixed_source oracleFail schemaFS "column.csv" "customers.csv"
    "Vendor_A" vendorSchemaW targetSchemaW (by decide) (by decide)).2 srcW (by decide)

end Appathon
